import Mathlib

/-!
Verification of the GridPilot trigger-order engine.

This file shallowly embeds the data model and the operations of the
trigger-order subsystem (src/models/enums.py, src/models/trigger_order.py,
src/models/order_log.py, src/storage/json_storage.py,
src/core/trigger_order_manager.py) and proves properties about them.

Conventions of the embedding:
- Python floats become rationals (ℚ); datetimes become integers (ℤ);
  `datetime.now()` becomes an explicit `now : ℤ` parameter.
- The JSON file store becomes a `Storage` value holding the list of trigger
  records and the append-only list of order-log lines.
- Exceptions become `Except`; `None` becomes `Option.none`.
-/

namespace GridPilot

/-- `TriggerCondition` from src/models/enums.py. -/
inductive TriggerCondition
  | greaterEqual   -- ">="
  | lessEqual      -- "<="
  | equal          -- "=="
  deriving DecidableEq, Repr

/-- `OrderType` from src/models/enums.py. -/
inductive OrderType
  | market
  | limit
  deriving DecidableEq, Repr

/-- `OrderAction` from src/models/enums.py. -/
inductive OrderAction
  | buy
  | sell
  deriving DecidableEq, Repr

/-- `TriggerStatus` from src/models/enums.py. -/
inductive TriggerStatus
  | active
  | triggered
  | executed
  | failed
  | cancelled
  | expired
  deriving DecidableEq, Repr, Fintype

/-- `TradeType` from src/models/enums.py. -/
inductive TradeType
  | cash
  | dayTrade
  | marginBuy
  | shortSell
  deriving DecidableEq, Repr

/-- `TriggerOrder` dataclass from src/models/trigger_order.py. -/
structure TriggerOrder where
  id : String
  user_id : String
  symbol : String
  symbol_name : String
  condition : TriggerCondition
  trigger_price : ℚ
  order_type : OrderType
  order_action : OrderAction
  order_price : Option ℚ
  trade_type : TradeType
  quantity : ℤ
  broker_name : String
  status : TriggerStatus
  created_at : ℤ
  updated_at : ℤ
  triggered_at : Option ℤ
  executed_at : Option ℤ
  expires_at : Option ℤ
  executed_order_no : Option String
  execution_message : String
  note : String
  deriving DecidableEq, Repr

/-- `TriggerOrder.is_condition_met` (src/models/trigger_order.py lines 56-77).
The tolerance parameter defaults to 0.01 in the source; here it is passed
explicitly. -/
def TriggerOrder.is_condition_met (t : TriggerOrder) (current_price : ℚ)
    (tolerance : ℚ) : Bool :=
  match t.condition with
  | .greaterEqual => decide (current_price ≥ t.trigger_price - tolerance)
  | .lessEqual => decide (current_price ≤ t.trigger_price + tolerance)
  | .equal => decide (|current_price - t.trigger_price| ≤ tolerance)

/-- `TriggerOrder.is_expired` (src/models/trigger_order.py lines 79-83):
`datetime.now() > expires_at`, false when `expires_at` is `None`. -/
def TriggerOrder.is_expired (t : TriggerOrder) (now : ℤ) : Bool :=
  match t.expires_at with
  | none => false
  | some e => decide (now > e)

/-- `OrderLog` dataclass from src/models/order_log.py (the fields the manager's
`_log_action` populates via `OrderLog.create_log`; the uuid `id` field is
omitted, `execution_price` and `extra_data` are never passed by the manager). -/
structure OrderLog where
  trigger_order_id : String
  user_id : String
  action : String
  order_no : Option String
  trigger_price : ℚ
  current_price : Option ℚ
  success : Bool
  message : String
  created_at : ℤ
  deriving DecidableEq, Repr

/-- The durable store: trigger records keyed by their `id` field and the
append-only order-log stream (src/storage/json_storage.py). -/
structure Storage where
  triggers : List TriggerOrder
  logs : List OrderLog
  deriving DecidableEq, Repr

/-- `JsonStorage.get_trigger_order` (src/storage/json_storage.py lines
117-151): locate the record with the given id. -/
def Storage.get_trigger_order (st : Storage) (trigger_id : String) :
    Option TriggerOrder :=
  st.triggers.find? (fun t => t.id == trigger_id)

/-- `JsonStorage.save_trigger_order` (src/storage/json_storage.py lines
98-115): whole-file replacement of the record with that id (creating it when
absent). -/
def Storage.save_trigger_order (st : Storage) (t : TriggerOrder) : Storage :=
  if st.triggers.any (fun u => u.id == t.id) then
    { st with triggers := st.triggers.map (fun u => if u.id == t.id then t else u) }
  else
    { st with triggers := st.triggers ++ [t] }

/-- `JsonStorage.delete_trigger_order` (src/storage/json_storage.py lines
191-226): unlink the record's file; `false` when no such record exists. -/
def Storage.delete_trigger (st : Storage) (trigger_id : String) :
    Bool × Storage :=
  if st.triggers.any (fun u => u.id == trigger_id) then
    (true, { st with triggers := st.triggers.filter (fun u => u.id != trigger_id) })
  else
    (false, st)

/-- `JsonStorage.save_order_log` (src/storage/json_storage.py lines 230-244):
append one JSONL line. -/
def Storage.save_order_log (st : Storage) (log : OrderLog) : Storage :=
  { st with logs := st.logs ++ [log] }

/-- `JsonStorage.get_triggers_by_status` (src/storage/json_storage.py lines
175-189): all records whose status equals the argument. -/
def Storage.get_triggers_by_status (st : Storage) (s : TriggerStatus) :
    List TriggerOrder :=
  st.triggers.filter (fun t => decide (t.status = s))

/-! ## TriggerOrderManager: CRUD (src/core/trigger_order_manager.py) -/

/-- `TriggerOrderManager._log_action` (lines 469-485): build the `OrderLog`
via `OrderLog.create_log` and append it to the store.  `current_price` and
`order_no` are the only keyword extras the manager ever passes. -/
def log_action (now : ℤ) (t : TriggerOrder) (action : String) (success : Bool)
    (message : String) (current_price : Option ℚ) (order_no : Option String) :
    OrderLog :=
  { trigger_order_id := t.id
    user_id := t.user_id
    action := action
    order_no := order_no
    trigger_price := t.trigger_price
    current_price := current_price
    success := success
    message := message
    created_at := now }

/-- The patch dictionary accepted by `update_trigger_order`; a `none` field
models both a missing dict key and an explicit `None` value (the source skips
a field when `field not in updates or updates[field] is None`). -/
structure TriggerUpdates where
  trigger_price : Option ℚ
  order_price : Option ℚ
  quantity : Option ℤ
  expires_at : Option ℤ
  note : Option String
  deriving DecidableEq, Repr

/-- The empty patch: no field present. -/
def TriggerUpdates.empty : TriggerUpdates :=
  { trigger_price := none, order_price := none, quantity := none,
    expires_at := none, note := none }

/-- The `setattr` loop of `update_trigger_order` (lines 174-182) over the
allowed fields. -/
def apply_updates (t : TriggerOrder) (u : TriggerUpdates) : TriggerOrder :=
  { t with
    trigger_price := u.trigger_price.getD t.trigger_price
    order_price := match u.order_price with
      | some p => some p
      | none => t.order_price
    quantity := u.quantity.getD t.quantity
    expires_at := match u.expires_at with
      | some e => some e
      | none => t.expires_at
    note := u.note.getD t.note }

/-- The ownership test of `update_trigger_order` (line 165):
`user_id and trigger.user_id != str(user_id)`.  Python truthiness makes both
`None` and the empty string skip the check. -/
def owner_mismatch (user_id : Option String) (owner : String) : Bool :=
  match user_id with
  | none => false
  | some s => s != "" && owner != s

/-- `TriggerOrderManager.update_trigger_order` (lines 148-190). -/
def update_trigger_order (st : Storage) (trigger_id : String)
    (updates : TriggerUpdates) (user_id : Option String) (now : ℤ) :
    Option TriggerOrder × Storage :=
  match st.get_trigger_order trigger_id with
  | none => (none, st)
  | some trigger =>
    if owner_mismatch user_id trigger.user_id then
      (none, st)
    else if trigger.status ≠ TriggerStatus.active then
      (none, st)
    else
      let t1 := { apply_updates trigger updates with updated_at := now }
      let st1 := st.save_trigger_order t1
      let st2 := st1.save_order_log
        (log_action now t1 "updated" true "更新欄位" none none)
      (some t1, st2)

/-- `TriggerOrderManager.delete_trigger_order` (lines 192-213).  The only
checks are existence and ownership; the record's status is never examined. -/
def delete_trigger_order (st : Storage) (trigger_id user_id : String) :
    Bool × Storage :=
  match st.get_trigger_order trigger_id with
  | none => (false, st)
  | some trigger =>
    if trigger.user_id != user_id then
      (false, st)
    else
      st.delete_trigger trigger_id

/-- `TriggerOrderManager.cancel_trigger_order` (lines 215-231). -/
def cancel_trigger_order (st : Storage) (trigger_id user_id : String)
    (now : ℤ) : Bool × Storage :=
  match st.get_trigger_order trigger_id with
  | none => (false, st)
  | some trigger =>
    if trigger.user_id != user_id then
      (false, st)
    else if trigger.status ≠ TriggerStatus.active then
      (false, st)
    else
      let t1 := { trigger with status := TriggerStatus.cancelled, updated_at := now }
      let st1 := st.save_trigger_order t1
      let st2 := st1.save_order_log
        (log_action now t1 "cancelled" true "條件單已取消" none none)
      (true, st2)

/-- One iteration of the sweep loop inside `get_all_active_triggers`
(lines 136-144): an expired record is marked EXPIRED, re-saved and logged;
a live record is collected. -/
def sweep_step (now : ℤ) (acc : List TriggerOrder × Storage)
    (trigger : TriggerOrder) : List TriggerOrder × Storage :=
  if trigger.is_expired now then
    let t1 := { trigger with status := TriggerStatus.expired, updated_at := now }
    let st1 := acc.2.save_trigger_order t1
    let st2 := st1.save_order_log
      (log_action now t1 "expired" true "條件單已過期" none none)
    (acc.1, st2)
  else
    (acc.1 ++ [trigger], acc.2)

/-- `TriggerOrderManager.get_all_active_triggers` (lines 130-146): list the
ACTIVE records, opportunistically expiring the ones whose `expires_at` has
passed; returns the surviving list together with the mutated store. -/
def get_all_active_triggers (st : Storage) (now : ℤ) :
    List TriggerOrder × Storage :=
  (st.get_triggers_by_status TriggerStatus.active).foldl (sweep_step now) ([], st)

/-! ## Broker adapters (src/brokers/base.py, src/brokers/esun.py) -/

/-- `OrderResult` from src/brokers/base.py. -/
structure OrderResult where
  success : Bool
  order_no : Option String
  message : String
  deriving DecidableEq, Repr

/-- One invocation of an adapter order-placement method. -/
inductive BrokerCall
  | marketBuy (symbol : String) (quantity : ℤ)
  | marketSell (symbol : String) (quantity : ℤ)
  | limitBuy (symbol : String) (price : ℚ) (quantity : ℤ)
  | limitSell (symbol : String) (price : ℚ) (quantity : ℤ)
  deriving DecidableEq, Repr

/-- Is a call one of the limit-order variants (`place_buy_order` /
`place_sell_order`)? -/
def BrokerCall.isLimit : BrokerCall → Bool
  | .limitBuy _ _ _ => true
  | .limitSell _ _ _ => true
  | _ => false

/-- An adapter as `execute_trigger` sees it.  `BaseBroker` (src/brokers/base.py
lines 167-201) defines `place_market_buy_order` and `place_market_sell_order`
on every adapter class, raising `NotImplementedError` unless the subclass
overrides them (EsunBroker does); hence for every adapter obtainable from
`get_broker` the `hasattr(broker, 'place_market_buy_order')` probe in
`execute_trigger` answers true.  `has_market_attr` records that probe's
answer and `implements_market` whether the subclass overrides the default.
The result fields stand for whatever the adapter's network call returns. -/
structure Broker where
  has_market_attr : Bool
  implements_market : Bool
  market_result : OrderResult
  limit_result : OrderResult
  name : String
  deriving DecidableEq, Repr

/-- The message of the `NotImplementedError` raised by the `BaseBroker`
default market methods (src/brokers/base.py lines 181-183 and 199-201). -/
def unsupported_market_message (b : Broker) (a : OrderAction) : String :=
  match a with
  | .buy => b.name ++ " 尚未實作市價買單功能，請覆寫 place_market_buy_order 方法"
  | .sell => b.name ++ " 尚未實作市價賣單功能，請覆寫 place_market_sell_order 方法"

/-- `place_market_buy_order`: the subclass override when present, otherwise
the raising `BaseBroker` default. -/
def Broker.place_market_buy_order (b : Broker) : Except String OrderResult :=
  if b.implements_market then .ok b.market_result
  else .error (unsupported_market_message b .buy)

/-- `place_market_sell_order`, analogously. -/
def Broker.place_market_sell_order (b : Broker) : Except String OrderResult :=
  if b.implements_market then .ok b.market_result
  else .error (unsupported_market_message b .sell)

/-! ## TriggerOrderManager.execute_trigger (lines 235-355) -/

/-- The manager state `execute_trigger` touches: the store plus the in-flight
set `_executing_triggers`. -/
structure ManagerState where
  storage : Storage
  executing_triggers : List String
  deriving DecidableEq, Repr

/-- What one `execute_trigger` call produced: its boolean return value, the
manager state after the `finally` block, and the adapter order methods it
invoked, in order. -/
structure ExecOutcome where
  result : Bool
  state : ManagerState
  broker_calls : List BrokerCall
  deriving DecidableEq, Repr

/-- The `except Exception` handler of `execute_trigger` (lines 337-350):
mark FAILED with the exception text, save, log, return `False`; the `finally`
block (lines 352-355) then discards the id from the in-flight set. -/
def exec_fail (now : ℤ) (st : Storage) (t1 : TriggerOrder) (e : String)
    (current_price : ℚ) (inflight0 : List String) (calls : List BrokerCall) :
    ExecOutcome :=
  let t2 := { t1 with status := TriggerStatus.failed, execution_message := e }
  let st1 := st.save_trigger_order t2
  let st2 := st1.save_order_log
    (log_action now t2 "failed" false e (some current_price) none)
  { result := false, state := { storage := st2, executing_triggers := inflight0 },
    broker_calls := calls }

/-- Lines 304-335 of `execute_trigger`: record the adapter's answer.  On
success the trigger becomes EXECUTED (with `executed_at`, the broker order
number and a success message), the `executed` log line is appended and the
record saved; on failure it becomes FAILED with the adapter's message, the
`failed` log line is appended and the record saved. -/
def record_outcome (now : ℤ) (st2 : Storage) (t1 : TriggerOrder)
    (result : OrderResult) (current_price : ℚ) (inflight0 : List String)
    (call : BrokerCall) : ExecOutcome :=
  if result.success then
    let t2 := { t1 with
      status := TriggerStatus.executed
      executed_at := some now
      executed_order_no := result.order_no
      execution_message := "執行成功" }
    let st3 := st2.save_order_log
      (log_action now t2 "executed" true "委託序號"
        (some current_price) result.order_no)
    let st4 := st3.save_trigger_order t2
    { result := true,
      state := { storage := st4, executing_triggers := inflight0 },
      broker_calls := [call] }
  else
    let t2 := { t1 with
      status := TriggerStatus.failed
      execution_message := result.message }
    let st3 := st2.save_order_log
      (log_action now t2 "failed" false result.message
        (some current_price) none)
    let st4 := st3.save_trigger_order t2
    { result := false,
      state := { storage := st4, executing_triggers := inflight0 },
      broker_calls := [call] }

/-- `TriggerOrderManager.execute_trigger` (lines 235-355), sequentially: one
call runs to completion.  `broker` is what `_get_broker` returns (`none`
models the `raise` at line 273).  The double-checked guard (lines 246-256),
the TRIGGERED persist and log (261-268), the market/limit dispatch (275-302),
the outcome recording (304-335), the exception handler and the `finally`
block are all embedded. -/
def execute_trigger (broker : Option Broker) (now : ℤ) (ms : ManagerState)
    (trigger : TriggerOrder) (current_price : ℚ) : ExecOutcome :=
  if trigger.id ∈ ms.executing_triggers then
    { result := false, state := ms, broker_calls := [] }
  else if (match ms.storage.get_trigger_order trigger.id with
           | some fresh => decide (fresh.status ≠ TriggerStatus.active)
           | none => false : Bool) then
    { result := false, state := ms, broker_calls := [] }
  else
    -- the guard added trigger.id to the set; the finally block removes it
    -- again, so every exit below restores ms.executing_triggers.
    let t1 := { trigger with
      status := TriggerStatus.triggered
      triggered_at := some now }
    let st1 := ms.storage.save_trigger_order t1
    let st2 := st1.save_order_log
      (log_action now t1 "triggered" true "觸發價格" (some current_price) none)
    match broker with
    | none =>
        exec_fail now st2 t1 ("無法連接券商 " ++ trigger.broker_name)
          current_price ms.executing_triggers []
    | some b =>
        let use_market := trigger.order_type = OrderType.market
        let order_price : ℚ :=
          if trigger.order_type = OrderType.market then 0
          else trigger.order_price.getD trigger.trigger_price
        let dispatch : BrokerCall × Except String OrderResult :=
          match trigger.order_action with
          | .buy =>
            if use_market ∧ b.has_market_attr then
              (BrokerCall.marketBuy trigger.symbol trigger.quantity,
               b.place_market_buy_order)
            else
              (BrokerCall.limitBuy trigger.symbol order_price trigger.quantity,
               .ok b.limit_result)
          | .sell =>
            if use_market ∧ b.has_market_attr then
              (BrokerCall.marketSell trigger.symbol trigger.quantity,
               b.place_market_sell_order)
            else
              (BrokerCall.limitSell trigger.symbol order_price trigger.quantity,
               .ok b.limit_result)
        match dispatch.2 with
        | .error e =>
            exec_fail now st2 t1 e current_price ms.executing_triggers
              [dispatch.1]
        | .ok result =>
            record_outcome now st2 t1 result current_price
              ms.executing_triggers dispatch.1

/-! ## File locking on durable writes (src/storage/json_storage.py) -/

/-- `LOCK_TIMEOUT` (src/storage/json_storage.py line 24), the timeout in
seconds passed to every `FileLock` the store creates (`_get_lock`, line 52). -/
def LOCK_TIMEOUT : ℕ := 10

/-- The outcome of acquiring the named file lock for a write. -/
inductive LockOutcome
  | acquired
  | timeout
  deriving DecidableEq, Repr

/-- The error kinds a store write can surface. -/
inductive StoreError
  | storeBusy
  deriving DecidableEq, Repr

/-- `JsonStorage.save_trigger_order` with its locking discipline (lines
98-115): the write happens under the lock; on `Timeout` the handler logs and
re-raises, so the caller sees the error. -/
def save_trigger_order_locked (lock : LockOutcome) (st : Storage)
    (t : TriggerOrder) : Except StoreError Storage :=
  match lock with
  | .acquired => .ok (st.save_trigger_order t)
  | .timeout => .error .storeBusy

/-- `JsonStorage.save_order_log` with its locking discipline (lines 230-244):
the append happens under the lock, but the `except Timeout` handler only logs
the failure and the function returns normally — nothing is appended and no
error reaches the caller. -/
def save_order_log_locked (lock : LockOutcome) (st : Storage)
    (log : OrderLog) : Except StoreError Storage :=
  match lock with
  | .acquired => .ok (st.save_order_log log)
  | .timeout => .ok st

/-! ## Interleaved model of concurrent `execute_trigger` calls

Two workers run `execute_trigger` for the same trigger id concurrently.  Each
worker's run is decomposed into the atomic actions that touch shared state,
at the granularity of the source:

* `guard`      — the whole `with self._executing_lock` block (lines 246-256):
                 membership test on the in-flight set, re-read of the stored
                 status, and insertion into the set, all under one lock;
* `markTrig`   — persist the TRIGGERED record (line 264);
* `callBroker` — the adapter order call (lines 285-302), provided
                 `_get_broker` produced an adapter (`avail`);
* `saveFinal`  — persist the terminal record (line 334 or 340), EXECUTED when
                 the call succeeded (`ok`) and FAILED otherwise (including
                 the broker-unavailable exception path);
* `removeInflight` — the `finally` block (lines 352-355).

`doneEarly` is the `return False` out of the guard, `doneFull` the completed
run.  The shared state carries the stored status, the in-flight flag for this
id, a saturating count of adapter calls, and the sequence of status values
the workers persisted. -/

/-- Program counter of one interleaved `execute_trigger` worker. -/
inductive XPc
  | guard
  | markTrig
  | callBroker
  | saveFinal
  | removeInflight
  | doneEarly
  | doneFull
  deriving DecidableEq, Repr, Fintype

/-- The sequence of status values written to the store for the trigger:
empty, `[TRIGGERED]`, `[TRIGGERED, EXECUTED]`, `[TRIGGERED, FAILED]`, or
anything else (`bad`). -/
inductive WriteHist
  | empty
  | trig
  | trigExec
  | trigFail
  | bad
  deriving DecidableEq, Repr, Fintype

/-- Append one persisted status to the history. -/
def WriteHist.push (h : WriteHist) (s : TriggerStatus) : WriteHist :=
  match h, s with
  | .empty, .triggered => .trig
  | .trig, .executed => .trigExec
  | .trig, .failed => .trigFail
  | _, _ => .bad

/-- Shared + per-worker state of the interleaved system.  `availX`/`okX` are
the fixed environment of worker X: whether `_get_broker` yields an adapter
and whether the adapter call succeeds. -/
structure CState where
  pc1 : XPc
  pc2 : XPc
  status : TriggerStatus
  inflight : Bool
  calls : Fin 3
  hist : WriteHist
  avail1 : Bool
  ok1 : Bool
  avail2 : Bool
  ok2 : Bool
  deriving DecidableEq, Repr

/-- Saturating increment of the adapter-call counter. -/
def bumpCalls (c : Fin 3) : Fin 3 :=
  if c.val = 0 then 1 else 2

/-- One atomic action of a worker with counter `pc` and environment
`avail`/`ok`; returns the new counter and the updated shared state. -/
def stepWorker (pc : XPc) (avail ok : Bool) (s : CState) : XPc × CState :=
  match pc with
  | .guard =>
      if s.inflight || decide (s.status ≠ TriggerStatus.active) then
        (.doneEarly, s)
      else
        (.markTrig, { s with inflight := true })
  | .markTrig =>
      (.callBroker, { s with
        status := TriggerStatus.triggered
        hist := s.hist.push TriggerStatus.triggered })
  | .callBroker =>
      if avail then (.saveFinal, { s with calls := bumpCalls s.calls })
      else (.saveFinal, s)
  | .saveFinal =>
      let term := if avail && ok then TriggerStatus.executed
                  else TriggerStatus.failed
      (.removeInflight, { s with status := term, hist := s.hist.push term })
  | .removeInflight =>
      (.doneFull, { s with inflight := false })
  | .doneEarly => (.doneEarly, s)
  | .doneFull => (.doneFull, s)

/-- One scheduler step: run one atomic action of worker 1 (`true`) or
worker 2 (`false`). -/
def stepC (who : Bool) (s : CState) : CState :=
  if who then
    let r := stepWorker s.pc1 s.avail1 s.ok1 s
    { r.2 with pc1 := r.1 }
  else
    let r := stepWorker s.pc2 s.avail2 s.ok2 s
    { r.2 with pc2 := r.1 }

/-- Run the two workers under an arbitrary finite schedule. -/
def runC (schedule : List Bool) (s : CState) : CState :=
  schedule.foldl (fun s who => stepC who s) s

/-- Initial state: the trigger is stored ACTIVE, nobody is in flight, no
adapter call has happened, nothing has been persisted by the workers. -/
def initC (a1 o1 a2 o2 : Bool) : CState :=
  { pc1 := .guard, pc2 := .guard, status := TriggerStatus.active,
    inflight := false, calls := 0, hist := WriteHist.empty,
    avail1 := a1, ok1 := o1, avail2 := a2, ok2 := o2 }

/-- Has the worker passed the guard (it owns, or owned, the in-flight slot)? -/
def XPc.progressed : XPc → Bool
  | .markTrig => true
  | .callBroker => true
  | .saveFinal => true
  | .removeInflight => true
  | .doneFull => true
  | _ => false

/-- Is the worker between the guard and the `finally` block? -/
def XPc.midFlight : XPc → Bool
  | .markTrig => true
  | .callBroker => true
  | .saveFinal => true
  | .removeInflight => true
  | _ => false

/-- The terminal status the owning worker persists, given its environment. -/
def termOf (avail ok : Bool) : TriggerStatus :=
  if avail && ok then TriggerStatus.executed else TriggerStatus.failed

/-- The complete write history of a finished worker, given its environment. -/
def histOf (avail ok : Bool) : WriteHist :=
  if avail && ok then WriteHist.trigExec else WriteHist.trigFail

/-- The adapter-call count contributed by the owning worker once it is past
the `callBroker` step. -/
def callsOf (avail : Bool) : Fin 3 :=
  if avail then 1 else 0

/-- A worker that never got past the guard (or has not reached it yet). -/
def idleAt (pc : XPc) : Prop :=
  pc = XPc.guard ∨ pc = XPc.doneEarly

/-- Where the shared state (status, in-flight flag, call count, write
history) can be, given that the worker with environment `avail`/`ok` owns
(or owned) the in-flight slot and sits at `pc`. -/
def ownerAt (pc : XPc) (avail ok : Bool) (stt : TriggerStatus) (infl : Bool)
    (cal : Fin 3) (hs : WriteHist) : Prop :=
  (pc = XPc.markTrig ∧ stt = TriggerStatus.active ∧ infl = true ∧
    cal = 0 ∧ hs = WriteHist.empty)
  ∨ (pc = XPc.callBroker ∧ stt = TriggerStatus.triggered ∧
    infl = true ∧ cal = 0 ∧ hs = WriteHist.trig)
  ∨ (pc = XPc.saveFinal ∧ stt = TriggerStatus.triggered ∧
    infl = true ∧ cal = callsOf avail ∧ hs = WriteHist.trig)
  ∨ (pc = XPc.removeInflight ∧ stt = termOf avail ok ∧
    infl = true ∧ cal = callsOf avail ∧ hs = histOf avail ok)
  ∨ (pc = XPc.doneFull ∧ stt = termOf avail ok ∧
    infl = false ∧ cal = callsOf avail ∧ hs = histOf avail ok)

/-- Inductive invariant of the interleaved system: either nobody has passed
the guard yet and the system is pristine, or exactly one worker owns the
in-flight slot and the shared state matches its phase, the other worker
being at the guard or bounced off. -/
def InvC (s : CState) : Prop :=
  (idleAt s.pc1 ∧ idleAt s.pc2 ∧ s.status = TriggerStatus.active ∧
    s.inflight = false ∧ s.calls = 0 ∧ s.hist = WriteHist.empty)
  ∨ (idleAt s.pc2 ∧ ownerAt s.pc1 s.avail1 s.ok1 s.status s.inflight s.calls s.hist)
  ∨ (idleAt s.pc1 ∧ ownerAt s.pc2 s.avail2 s.ok2 s.status s.inflight s.calls s.hist)

/-! ## Concrete sample data for witnesses and counterexamples -/

/-- A sample ACTIVE limit-buy trigger. -/
def sampleTrigger : TriggerOrder :=
  { id := "t1", user_id := "u1", symbol := "2330", symbol_name := "",
    condition := TriggerCondition.greaterEqual, trigger_price := 600,
    order_type := OrderType.limit, order_action := OrderAction.buy,
    order_price := some 601, trade_type := TradeType.cash, quantity := 1,
    broker_name := "esun", status := TriggerStatus.active, created_at := 0,
    updated_at := 0, triggered_at := none, executed_at := none,
    expires_at := none, executed_order_no := none, execution_message := "",
    note := "" }

/-- A store holding just the sample trigger and no logs. -/
def sampleStorage : Storage := { triggers := [sampleTrigger], logs := [] }

/-- A sample order-log line. -/
def sampleLog : OrderLog :=
  { trigger_order_id := "t1", user_id := "u1", action := "cancelled",
    order_no := none, trigger_price := 600, current_price := none,
    success := true, message := "", created_at := 0 }

/-- The store result of a successful update, for reuse in statements. -/
def updated_store (st : Storage) (t : TriggerOrder) (u : TriggerUpdates)
    (now : ℤ) : Storage :=
  (st.save_trigger_order { apply_updates t u with updated_at := now }).save_order_log
    (log_action now { apply_updates t u with updated_at := now }
      "updated" true "更新欄位" none none)

/-- A stub adapter whose class does not override the `BaseBroker` market
methods (the attribute still exists and raises). -/
def stubBroker : Broker :=
  { has_market_attr := true, implements_market := false,
    market_result := { success := true, order_no := some "A1", message := "" },
    limit_result := { success := true, order_no := some "A2", message := "" },
    name := "stub" }

/-- Manager state holding the sample store with nothing in flight. -/
def sampleMS : ManagerState :=
  { storage := sampleStorage, executing_triggers := [] }

/-- The sample trigger as a market order. -/
def marketTrigger : TriggerOrder :=
  { sampleTrigger with order_type := OrderType.market }

/-- Manager state over an empty store (no record, nothing in flight). -/
def emptyMS : ManagerState :=
  { storage := { triggers := [], logs := [] }, executing_triggers := [] }

/-- A store holding one ACTIVE trigger that expired at time 1. -/
def expiredStorage : Storage :=
  { triggers := [{ sampleTrigger with expires_at := some 1 }], logs := [] }

/-- Manager state whose stored record is already CANCELLED. -/
def cancelledMS : ManagerState :=
  { storage := { triggers :=
      [{ sampleTrigger with status := TriggerStatus.cancelled }], logs := [] },
    executing_triggers := [] }

/-- Manager state with the sample id already in flight. -/
def inflightMS : ManagerState :=
  { storage := sampleStorage, executing_triggers := ["t1"] }

lemma InvC_init (a1 o1 a2 o2 : Bool) : InvC (initC a1 o1 a2 o2) :=
  Or.inl ⟨Or.inl rfl, Or.inl rfl, rfl, rfl, rfl, rfl⟩

lemma InvC_step (w : Bool) (s : CState) (hInv : InvC s) : InvC (stepC w s) := by
  obtain ⟨pa, pb, stt, infl, cal, hs, aa, oa, ab, ob⟩ := s
  dsimp only [InvC, ownerAt, idleAt] at hInv
  rcases hInv with ⟨ha, hb, rfl, rfl, rfl, rfl⟩ | ⟨hb, ho⟩ | ⟨ha, ho⟩
  · rcases ha with rfl | rfl <;> rcases hb with rfl | rfl <;> cases w <;>
      simp [stepC, stepWorker, InvC, ownerAt, idleAt]
  · rcases hb with rfl | rfl <;>
      rcases ho with ⟨rfl, rfl, rfl, rfl, rfl⟩ | ⟨rfl, rfl, rfl, rfl, rfl⟩ |
        ⟨rfl, rfl, rfl, rfl, rfl⟩ | ⟨rfl, rfl, rfl, rfl, rfl⟩ |
        ⟨rfl, rfl, rfl, rfl, rfl⟩ <;>
      cases w <;> cases aa <;> cases oa <;>
      simp [stepC, stepWorker, InvC, ownerAt, idleAt, termOf, histOf, callsOf,
        bumpCalls, WriteHist.push]
  · rcases ha with rfl | rfl <;>
      rcases ho with ⟨rfl, rfl, rfl, rfl, rfl⟩ | ⟨rfl, rfl, rfl, rfl, rfl⟩ |
        ⟨rfl, rfl, rfl, rfl, rfl⟩ | ⟨rfl, rfl, rfl, rfl, rfl⟩ |
        ⟨rfl, rfl, rfl, rfl, rfl⟩ <;>
      cases w <;> cases ab <;> cases ob <;>
      simp [stepC, stepWorker, InvC, ownerAt, idleAt, termOf, histOf, callsOf,
        bumpCalls, WriteHist.push]

lemma InvC_runC (schedule : List Bool) (s : CState) (hInv : InvC s) :
    InvC (runC schedule s) := by
  induction schedule generalizing s with
  | nil => exact hInv
  | cons w ws ih => exact ih (stepC w s) (InvC_step w s hInv)

lemma InvC_good (s : CState) (hInv : InvC s) :
    s.calls.val ≤ 1 ∧ s.hist ≠ WriteHist.bad ∧
      ¬(s.pc1.progressed = true ∧ s.pc2.progressed = true) := by
  obtain ⟨pa, pb, stt, infl, cal, hs, aa, oa, ab, ob⟩ := s
  dsimp only [InvC, ownerAt, idleAt] at hInv
  rcases hInv with ⟨ha, hb, rfl, rfl, rfl, rfl⟩ | ⟨hb, ho⟩ | ⟨ha, ho⟩
  · rcases ha with rfl | rfl <;> rcases hb with rfl | rfl <;>
      simp [XPc.progressed]
  · rcases hb with rfl | rfl <;>
      rcases ho with ⟨rfl, rfl, rfl, rfl, rfl⟩ | ⟨rfl, rfl, rfl, rfl, rfl⟩ |
        ⟨rfl, rfl, rfl, rfl, rfl⟩ | ⟨rfl, rfl, rfl, rfl, rfl⟩ |
        ⟨rfl, rfl, rfl, rfl, rfl⟩ <;>
      cases aa <;> cases oa <;>
      simp [XPc.progressed, callsOf, histOf]
  · rcases ha with rfl | rfl <;>
      rcases ho with ⟨rfl, rfl, rfl, rfl, rfl⟩ | ⟨rfl, rfl, rfl, rfl, rfl⟩ |
        ⟨rfl, rfl, rfl, rfl, rfl⟩ | ⟨rfl, rfl, rfl, rfl, rfl⟩ |
        ⟨rfl, rfl, rfl, rfl, rfl⟩ <;>
      cases ab <;> cases ob <;>
      simp [XPc.progressed, callsOf, histOf]

/-! ## Helper lemmas about the store -/

lemma find_map_self {l : List TriggerOrder} {t : TriggerOrder}
    (h : l.any (fun u => u.id == t.id) = true) :
    (l.map (fun u => if u.id == t.id then t else u)).find?
      (fun u => u.id == t.id) = some t := by
  induction l with
  | nil => simp at h
  | cons u us ih =>
    by_cases hu : u.id = t.id
    · simp [List.find?, hu]
    · have hu' : (u.id == t.id) = false := by simp [hu]
      simp only [List.any_cons, hu', Bool.false_or] at h
      simp only [List.map_cons, hu', if_false, List.find?, hu', Bool.false_eq_true]
      exact ih h

lemma find_append_self {l : List TriggerOrder} {t : TriggerOrder}
    (h : l.any (fun u => u.id == t.id) = false) :
    (l ++ [t]).find? (fun u => u.id == t.id) = some t := by
  induction l with
  | nil => simp [List.find?]
  | cons u us ih =>
    simp only [List.any_cons, Bool.or_eq_false_iff] at h
    simp only [List.cons_append, List.find?, h.1, Bool.false_eq_true]
    exact ih h.2

/-- After saving a record, looking its id up yields exactly that record. -/
lemma get_trigger_order_save_self (st : Storage) (t : TriggerOrder) :
    (st.save_trigger_order t).get_trigger_order t.id = some t := by
  unfold Storage.save_trigger_order Storage.get_trigger_order
  by_cases h : st.triggers.any (fun u => u.id == t.id) = true
  · simp only [h, if_true]
    exact find_map_self h
  · have h' : st.triggers.any (fun u => u.id == t.id) = false := by
      simpa using h
    simp only [h', Bool.false_eq_true, if_false]
    exact find_append_self h'

lemma find_map_ne {l : List TriggerOrder} {t : TriggerOrder} {i : String}
    (h : i ≠ t.id) :
    (l.map (fun u => if u.id == t.id then t else u)).find?
      (fun u => u.id == i) =
    l.find? (fun u => u.id == i) := by
  induction l with
  | nil => rfl
  | cons u us ih =>
    by_cases hu : u.id = t.id
    · have h1 : (u.id == t.id) = true := by simp [hu]
      have h2 : (t.id == i) = false := by
        simp only [beq_eq_false_iff_ne]
        exact fun e => h e.symm
      have h3 : (u.id == i) = false := by
        simp only [beq_eq_false_iff_ne, hu]
        exact fun e => h e.symm
      simp only [List.map_cons, h1, if_true, List.find?, h2, h3,
        Bool.false_eq_true, ih]
    · have h1 : (u.id == t.id) = false := by simp [hu]
      simp only [List.map_cons, h1, if_false, List.find?, Bool.false_eq_true]
      cases hui : u.id == i
      · simpa using ih
      · rfl

lemma find_append_ne {l : List TriggerOrder} {t : TriggerOrder} {i : String}
    (h : i ≠ t.id) :
    ((l ++ [t]).find? (fun u => u.id == i)) = l.find? (fun u => u.id == i) := by
  induction l with
  | nil =>
    have h2 : (t.id == i) = false := by
      simp only [beq_eq_false_iff_ne]
      exact fun e => h e.symm
    simp [List.find?, h2]
  | cons u us ih =>
    simp only [List.cons_append, List.find?]
    cases hui : u.id == i
    · simpa using ih
    · rfl

/-- Saving a record does not disturb the lookup of a different id. -/
lemma get_trigger_order_save_of_ne (st : Storage) (t : TriggerOrder)
    {i : String} (h : i ≠ t.id) :
    (st.save_trigger_order t).get_trigger_order i = st.get_trigger_order i := by
  unfold Storage.save_trigger_order Storage.get_trigger_order
  by_cases ha : st.triggers.any (fun u => u.id == t.id) = true
  · simp only [ha, if_true]
    exact find_map_ne h
  · have ha' : st.triggers.any (fun u => u.id == t.id) = false := by
      simpa using ha
    simp only [ha', Bool.false_eq_true, if_false]
    exact find_append_ne h

/-- Saving a trigger record leaves the log stream untouched. -/
lemma logs_save_trigger_order (st : Storage) (t : TriggerOrder) :
    (st.save_trigger_order t).logs = st.logs := by
  unfold Storage.save_trigger_order
  by_cases h : st.triggers.any (fun u => u.id == t.id) = true <;> simp [h]

/-- Appending a log line leaves the trigger records untouched. -/
lemma triggers_save_order_log (st : Storage) (l : OrderLog) :
    (st.save_order_log l).triggers = st.triggers := rfl

/-- Appending a log line does not affect trigger lookups. -/
lemma get_trigger_order_save_order_log (st : Storage) (l : OrderLog)
    (i : String) :
    (st.save_order_log l).get_trigger_order i = st.get_trigger_order i := rfl

/-! ## Claim theorems -/

/-- C4: condition evaluation uses an absolute tolerance: with tolerance 0.01,
`GE` holds iff `p ≥ triggerPrice − 0.01`, `LE` iff `p ≤ triggerPrice + 0.01`,
and `EQ` iff `|p − triggerPrice| ≤ 0.01`
(src/models/trigger_order.py lines 56-77). -/
theorem condition_eval_uses_absolute_tolerance (t : TriggerOrder) (p : ℚ) :
    (t.condition = TriggerCondition.greaterEqual →
      (t.is_condition_met p 0.01 = true ↔ p ≥ t.trigger_price - 0.01)) ∧
    (t.condition = TriggerCondition.lessEqual →
      (t.is_condition_met p 0.01 = true ↔ p ≤ t.trigger_price + 0.01)) ∧
    (t.condition = TriggerCondition.equal →
      (t.is_condition_met p 0.01 = true ↔ |p - t.trigger_price| ≤ 0.01)) := by
  refine ⟨fun h => ?_, fun h => ?_, fun h => ?_⟩ <;>
    simp [TriggerOrder.is_condition_met, h, ge_iff_le]

/-- C4 witness: a trigger `GE 100.00` fires at observed price `99.995`. -/
theorem condition_eval_uses_absolute_tolerance_witness :
    TriggerOrder.is_condition_met
      { sampleTrigger with trigger_price := 100 } 99.995 0.01 = true :=
  ((condition_eval_uses_absolute_tolerance
      { sampleTrigger with trigger_price := 100 } 99.995).1 rfl).mpr (by norm_num)

/-- C3 counterexample: `delete_trigger_order` hard-deletes an ACTIVE trigger
for its owner — there is no terminal-state restriction in the code
(src/core/trigger_order_manager.py lines 192-213 check only existence and
ownership). -/
theorem delete_removes_active_trigger :
    sampleTrigger.status = TriggerStatus.active ∧
    (delete_trigger_order sampleStorage "t1" "u1").1 = true ∧
    (delete_trigger_order sampleStorage "t1" "u1").2.get_trigger_order "t1"
      = none := by
  refine ⟨rfl, ?_, ?_⟩ <;> rfl

/-- C3 amended: `delete_trigger_order(trigger_id, user_id)` removes the
record whenever the record exists and `user_id` owns it, regardless of its
status (ACTIVE included); it refuses only missing records and non-owners. -/
theorem delete_trigger_order_spec (st : Storage) (i uid : String) :
    (st.get_trigger_order i = none → delete_trigger_order st i uid = (false, st)) ∧
    (∀ t, st.get_trigger_order i = some t → t.user_id ≠ uid →
      delete_trigger_order st i uid = (false, st)) ∧
    (∀ t, st.get_trigger_order i = some t → t.user_id = uid →
      delete_trigger_order st i uid = st.delete_trigger i) := by
  refine ⟨fun h => ?_, fun t ht hne => ?_, fun t ht he => ?_⟩
  · simp [delete_trigger_order, h]
  · simp [delete_trigger_order, ht, hne]
  · simp [delete_trigger_order, ht, he]

/-- C3 amended witness: concrete instance of the ownership-only behaviour on
an ACTIVE record. -/
theorem delete_trigger_order_spec_witness :
    delete_trigger_order sampleStorage "t1" "u1"
      = sampleStorage.delete_trigger "t1" :=
  (delete_trigger_order_spec sampleStorage "t1" "u1").2.2 sampleTrigger rfl rfl

/-- C7 counterexample: a lock-acquisition timeout inside `save_order_log`
does not surface to the caller — the function returns normally and the log
entry is silently dropped (src/storage/json_storage.py lines 241-242 catch
the `Timeout` without re-raising). -/
theorem save_order_log_timeout_swallowed :
    save_order_log_locked LockOutcome.timeout sampleStorage sampleLog
      = Except.ok sampleStorage ∧
    sampleStorage.logs = [] :=
  ⟨rfl, rfl⟩

/-- C7 amended: every durable write acquires the named file lock with a
10-second timeout; for `save_trigger_order` a lock timeout is re-raised to
the caller (the StoreBusy error), but `save_order_log` swallows the timeout
and returns normally without appending, so an operation can report success
without its OrderLog entry having been written. -/
theorem locked_write_discipline (st : Storage) (t : TriggerOrder)
    (l : OrderLog) :
    LOCK_TIMEOUT = 10 ∧
    save_trigger_order_locked LockOutcome.acquired st t
      = Except.ok (st.save_trigger_order t) ∧
    save_trigger_order_locked LockOutcome.timeout st t
      = Except.error StoreError.storeBusy ∧
    save_order_log_locked LockOutcome.acquired st l
      = Except.ok (st.save_order_log l) ∧
    save_order_log_locked LockOutcome.timeout st l = Except.ok st :=
  ⟨rfl, rfl, rfl, rfl, rfl⟩

/-- A record found under an id carries that id. -/
lemma get_trigger_order_id {st : Storage} {i : String} {t : TriggerOrder}
    (h : st.get_trigger_order i = some t) : t.id = i := by
  unfold Storage.get_trigger_order at h
  have hp := List.find?_some h
  simpa using hp

/-- Cancelling a record that is not ACTIVE returns false and leaves the
store untouched. -/
lemma cancel_trigger_order_nonactive (st : Storage) (i uid : String)
    (now : ℤ) (t : TriggerOrder) (hget : st.get_trigger_order i = some t)
    (hnact : t.status ≠ TriggerStatus.active) :
    cancel_trigger_order st i uid now = (false, st) := by
  unfold cancel_trigger_order
  rw [hget]
  by_cases huid : t.user_id = uid
  · simp [huid, hnact]
  · simp [huid]

/-- C8: `cancel_trigger_order` succeeds only on an ACTIVE trigger owned by
the caller, transitioning it to CANCELLED with `updatedAt = now` and
appending a `cancelled` log line; on a non-ACTIVE (e.g. already CANCELLED)
record it returns false with the store untouched and no log line, so a
second cancel is a no-op (src/core/trigger_order_manager.py lines 215-231). -/
theorem cancel_trigger_order_spec (st : Storage) (i uid : String)
    (now now2 : ℤ) (t : TriggerOrder)
    (hget : st.get_trigger_order i = some t) :
    (t.user_id = uid → t.status = TriggerStatus.active →
      cancel_trigger_order st i uid now =
        (true,
         (st.save_trigger_order
            { t with status := TriggerStatus.cancelled, updated_at := now }).save_order_log
           (log_action now
             { t with status := TriggerStatus.cancelled, updated_at := now }
             "cancelled" true "條件單已取消" none none)) ∧
      (cancel_trigger_order st i uid now).2.get_trigger_order i =
        some { t with status := TriggerStatus.cancelled, updated_at := now } ∧
      (cancel_trigger_order st i uid now).2.logs =
        st.logs ++ [log_action now
          { t with status := TriggerStatus.cancelled, updated_at := now }
          "cancelled" true "條件單已取消" none none] ∧
      cancel_trigger_order (cancel_trigger_order st i uid now).2 i uid now2 =
        (false, (cancel_trigger_order st i uid now).2)) ∧
    (t.status ≠ TriggerStatus.active →
      cancel_trigger_order st i uid now = (false, st)) ∧
    (t.user_id ≠ uid →
      cancel_trigger_order st i uid now = (false, st)) := by
  have hid : t.id = i := get_trigger_order_id hget
  refine ⟨?_, ?_, ?_⟩
  · intro huid hact
    have heq : cancel_trigger_order st i uid now =
        (true,
         (st.save_trigger_order
            { t with status := TriggerStatus.cancelled, updated_at := now }).save_order_log
           (log_action now
             { t with status := TriggerStatus.cancelled, updated_at := now }
             "cancelled" true "條件單已取消" none none)) := by
      unfold cancel_trigger_order
      rw [hget]
      simp [huid, hact]
    have hlook : (cancel_trigger_order st i uid now).2.get_trigger_order i =
        some { t with status := TriggerStatus.cancelled, updated_at := now } := by
      rw [heq]
      rw [get_trigger_order_save_order_log]
      have := get_trigger_order_save_self st
        { t with status := TriggerStatus.cancelled, updated_at := now }
      simpa [hid] using this
    refine ⟨heq, hlook, ?_, ?_⟩
    · rw [heq]
      simp [Storage.save_order_log, logs_save_trigger_order]
    · exact cancel_trigger_order_nonactive _ _ _ _ _ hlook (by simp)
  · intro hnact
    exact cancel_trigger_order_nonactive _ _ _ _ _ hget hnact
  · intro hnu
    unfold cancel_trigger_order
    rw [hget]
    simp [hnu]

/-- C8 witness: concrete run of a successful cancel followed by an
idempotent second cancel, and a non-owner cancel of the same ACTIVE record
returning false with the store untouched. -/
theorem cancel_trigger_order_spec_witness :
    cancel_trigger_order sampleStorage "t1" "u1" 5 =
      (true,
       (sampleStorage.save_trigger_order
          { sampleTrigger with status := TriggerStatus.cancelled, updated_at := 5 }).save_order_log
         (log_action 5
           { sampleTrigger with status := TriggerStatus.cancelled, updated_at := 5 }
           "cancelled" true "條件單已取消" none none)) ∧
    cancel_trigger_order (cancel_trigger_order sampleStorage "t1" "u1" 5).2
      "t1" "u1" 6 = (false, (cancel_trigger_order sampleStorage "t1" "u1" 5).2) ∧
    cancel_trigger_order sampleStorage "t1" "u2" 5 = (false, sampleStorage) :=
  ⟨((cancel_trigger_order_spec sampleStorage "t1" "u1" 5 6 sampleTrigger
      rfl).1 rfl rfl).1,
   ((cancel_trigger_order_spec sampleStorage "t1" "u1" 5 6 sampleTrigger
      rfl).1 rfl rfl).2.2.2,
   (cancel_trigger_order_spec sampleStorage "t1" "u2" 5 6 sampleTrigger
      rfl).2.2 (by decide)⟩

/-- An update with the ownership check passed and an ACTIVE record reduces to
the patched save. -/
lemma update_trigger_order_success (st : Storage) (i : String)
    (u : TriggerUpdates) (uid : Option String) (now : ℤ) (t : TriggerOrder)
    (hget : st.get_trigger_order i = some t)
    (hm : owner_mismatch uid t.user_id = false)
    (hact : t.status = TriggerStatus.active) :
    update_trigger_order st i u uid now =
      (some { apply_updates t u with updated_at := now },
       updated_store st t u now) := by
  unfold update_trigger_order updated_store
  rw [hget]
  simp [hm, hact]

/-- C9: with `user_id = None` (or the empty string, both falsy in Python)
the ownership check in `update_trigger_order` is skipped entirely: any
ACTIVE record is mutated no matter which tenant owns it; a `Forbidden`
rejection can only arise from a supplied non-empty `user_id` that differs
from the owner (src/core/trigger_order_manager.py line 165). -/
theorem update_without_user_skips_ownership (st : Storage) (i : String)
    (u : TriggerUpdates) (now : ℤ) (t : TriggerOrder)
    (hget : st.get_trigger_order i = some t)
    (hact : t.status = TriggerStatus.active) :
    (∀ uid, (uid = none ∨ uid = some "") →
      update_trigger_order st i u uid now =
        (some { apply_updates t u with updated_at := now },
         updated_store st t u now)) ∧
    (∀ s, update_trigger_order st i u (some s) now = (none, st) →
      s ≠ "" ∧ t.user_id ≠ s) := by
  constructor
  · rintro uid (rfl | rfl) <;>
      exact update_trigger_order_success st i u _ now t hget rfl hact
  · intro s hrej
    by_cases hm : owner_mismatch (some s) t.user_id = true
    · unfold owner_mismatch at hm
      simp only [Bool.and_eq_true, bne_iff_ne] at hm
      exact ⟨hm.1, fun e => hm.2 e⟩
    · have hm' : owner_mismatch (some s) t.user_id = false := by
        simpa using hm
      rw [update_trigger_order_success st i u (some s) now t hget hm' hact]
        at hrej
      simp at hrej

/-- C9 witness: with no `user_id` supplied, a record owned by `u1` is
mutated anyway. -/
theorem update_without_user_skips_ownership_witness :
    update_trigger_order sampleStorage "t1"
        { TriggerUpdates.empty with trigger_price := some 650 } none 7 =
      (some { apply_updates sampleTrigger
                { TriggerUpdates.empty with trigger_price := some 650 } with
              updated_at := 7 },
       updated_store sampleStorage sampleTrigger
         { TriggerUpdates.empty with trigger_price := some 650 } 7) :=
  (update_without_user_skips_ownership sampleStorage "t1"
      { TriggerUpdates.empty with trigger_price := some 650 } 7 sampleTrigger
      rfl rfl).1 none (Or.inl rfl)

/-- C6: `update_trigger_order` rejects the patch when a non-empty `user_id`
is supplied that does not own the record, or when the record is not ACTIVE;
on success only `trigger_price`, `order_price`, `quantity`, `expires_at` and
`note` follow the patch, `updated_at` is set to now, and every other field is
unchanged (src/core/trigger_order_manager.py lines 148-190). -/
theorem update_trigger_order_frame (st : Storage) (i : String)
    (u : TriggerUpdates) (now : ℤ) :
    (∀ t s, st.get_trigger_order i = some t → s ≠ "" → t.user_id ≠ s →
      update_trigger_order st i u (some s) now = (none, st)) ∧
    (∀ t uid, st.get_trigger_order i = some t →
      t.status ≠ TriggerStatus.active →
      update_trigger_order st i u uid now = (none, st)) ∧
    (∀ t t2 st2 uid, st.get_trigger_order i = some t →
      update_trigger_order st i u uid now = (some t2, st2) →
      t2.id = t.id ∧ t2.user_id = t.user_id ∧ t2.symbol = t.symbol ∧
      t2.symbol_name = t.symbol_name ∧ t2.condition = t.condition ∧
      t2.order_action = t.order_action ∧ t2.order_type = t.order_type ∧
      t2.trade_type = t.trade_type ∧ t2.broker_name = t.broker_name ∧
      t2.status = t.status ∧ t2.created_at = t.created_at ∧
      t2.triggered_at = t.triggered_at ∧ t2.executed_at = t.executed_at ∧
      t2.executed_order_no = t.executed_order_no ∧
      t2.execution_message = t.execution_message ∧
      t2.updated_at = now ∧
      t2.trigger_price = u.trigger_price.getD t.trigger_price ∧
      t2.order_price = (match u.order_price with
        | some p => some p
        | none => t.order_price) ∧
      t2.quantity = u.quantity.getD t.quantity ∧
      t2.expires_at = (match u.expires_at with
        | some e => some e
        | none => t.expires_at) ∧
      t2.note = u.note.getD t.note ∧
      st2 = updated_store st t u now) := by
  refine ⟨?_, ?_, ?_⟩
  · intro t s hget hs hown
    unfold update_trigger_order
    rw [hget]
    have hm : owner_mismatch (some s) t.user_id = true := by
      unfold owner_mismatch
      simp [hs, hown]
    simp [hm]
  · intro t uid hget hnact
    unfold update_trigger_order
    rw [hget]
    by_cases hm : owner_mismatch uid t.user_id = true
    · simp [hm]
    · simp [hm, hnact]
  · intro t t2 st2 uid hget hupd
    by_cases hm : owner_mismatch uid t.user_id = true
    · unfold update_trigger_order at hupd
      rw [hget] at hupd
      simp [hm] at hupd
    · have hm' : owner_mismatch uid t.user_id = false := by simpa using hm
      by_cases hact : t.status = TriggerStatus.active
      · rw [update_trigger_order_success st i u uid now t hget hm' hact]
          at hupd
        obtain ⟨h1, h2⟩ := Prod.mk.injEq .. ▸ hupd
        cases Option.some.injEq .. ▸ h1
        exact ⟨rfl, rfl, rfl, rfl, rfl, rfl, rfl, rfl, rfl, rfl, rfl, rfl,
          rfl, rfl, rfl, rfl, rfl, rfl, rfl, rfl, rfl, h2.symm⟩
      · unfold update_trigger_order at hupd
        rw [hget] at hupd
        simp [hm, hact] at hupd

/-- C6 witness: a concrete rejected update (wrong tenant) and a concrete
accepted update showing the frame condition. -/
theorem update_trigger_order_frame_witness :
    update_trigger_order sampleStorage "t1" TriggerUpdates.empty
        (some "u2") 7 = (none, sampleStorage) ∧
    (∀ t2 st2, update_trigger_order sampleStorage "t1"
        TriggerUpdates.empty (some "u1") 7 = (some t2, st2) →
      t2.user_id = sampleTrigger.user_id) :=
  ⟨(update_trigger_order_frame sampleStorage "t1" TriggerUpdates.empty 7).1
      sampleTrigger "u2" rfl (by decide) (by decide),
   fun t2 st2 h =>
    (((update_trigger_order_frame sampleStorage "t1" TriggerUpdates.empty
        7).2.2 sampleTrigger t2 st2 (some "u1") rfl h)).2.1⟩

/-! ## Facts about the exception path of `execute_trigger` -/

lemma exec_fail_broker_calls (now : ℤ) (st : Storage) (t1 : TriggerOrder)
    (e : String) (p : ℚ) (infl : List String) (calls : List BrokerCall) :
    (exec_fail now st t1 e p infl calls).broker_calls = calls := rfl

lemma exec_fail_result (now : ℤ) (st : Storage) (t1 : TriggerOrder)
    (e : String) (p : ℚ) (infl : List String) (calls : List BrokerCall) :
    (exec_fail now st t1 e p infl calls).result = false := rfl

lemma exec_fail_lookup (now : ℤ) (st : Storage) (t1 : TriggerOrder)
    (e : String) (p : ℚ) (infl : List String) (calls : List BrokerCall) :
    (exec_fail now st t1 e p infl calls).state.storage.get_trigger_order t1.id
      = some { t1 with
               status := TriggerStatus.failed
               execution_message := e } := by
  unfold exec_fail
  rw [get_trigger_order_save_order_log]
  exact get_trigger_order_save_self st _

lemma exec_fail_logs_mono (now : ℤ) (st : Storage) (t1 : TriggerOrder)
    (e : String) (p : ℚ) (infl : List String) (calls : List BrokerCall)
    (l : OrderLog) (hl : l ∈ st.logs) :
    l ∈ (exec_fail now st t1 e p infl calls).state.storage.logs := by
  unfold exec_fail
  simp only [Storage.save_order_log, logs_save_trigger_order]
  exact List.mem_append_left _ hl

/-- C2: an `orderKind = MARKET` trigger executed against an adapter whose
class does not override the market-order methods fails fast: `BaseBroker`
still defines the attribute (so the `hasattr` probe answers true), the call
raises `NotImplementedError`, the exception handler marks the trigger FAILED
with that unsupported message, and no limit order is ever substituted
(src/core/trigger_order_manager.py lines 276-302, src/brokers/base.py lines
167-201). -/
theorem market_order_unsupported_fails_fast (b : Broker) (now : ℤ)
    (ms : ManagerState) (trigger : TriggerOrder) (price : ℚ)
    (hmkt : trigger.order_type = OrderType.market)
    (hattr : b.has_market_attr = true)
    (himpl : b.implements_market = false)
    (hnin : trigger.id ∉ ms.executing_triggers)
    (hguard : ∀ f, ms.storage.get_trigger_order trigger.id = some f →
      f.status = TriggerStatus.active) :
    (execute_trigger (some b) now ms trigger price).result = false ∧
    (execute_trigger (some b) now ms trigger price).broker_calls.all
      (fun c => !c.isLimit) = true ∧
    (execute_trigger (some b) now ms trigger price).state.storage.get_trigger_order
        trigger.id =
      some { trigger with
             status := TriggerStatus.failed
             triggered_at := some now
             execution_message :=
               unsupported_market_message b trigger.order_action } := by
  have hout : execute_trigger (some b) now ms trigger price =
      exec_fail now
        ((ms.storage.save_trigger_order
            { trigger with
              status := TriggerStatus.triggered
              triggered_at := some now }).save_order_log
          (log_action now
            { trigger with
              status := TriggerStatus.triggered
              triggered_at := some now }
            "triggered" true "觸發價格" (some price) none))
        { trigger with
          status := TriggerStatus.triggered
          triggered_at := some now }
        (unsupported_market_message b trigger.order_action) price
        ms.executing_triggers
        [match trigger.order_action with
          | .buy => BrokerCall.marketBuy trigger.symbol trigger.quantity
          | .sell => BrokerCall.marketSell trigger.symbol trigger.quantity] := by
    unfold execute_trigger
    rw [if_neg hnin]
    have hg : (match ms.storage.get_trigger_order trigger.id with
        | some fresh => decide (fresh.status ≠ TriggerStatus.active)
        | none => false) = false := by
      cases hl : ms.storage.get_trigger_order trigger.id with
      | none => rfl
      | some f => simp [hguard f hl]
    rw [hg]
    simp only [Bool.false_eq_true, if_false]
    cases hact : trigger.order_action <;>
      simp [hmkt, hattr, Broker.place_market_buy_order,
        Broker.place_market_sell_order, himpl, hact]
  rw [hout]
  refine ⟨exec_fail_result .., ?_, ?_⟩
  · cases trigger.order_action <;> rfl
  · exact exec_fail_lookup ..

/-- C2 witness: a concrete market trigger against an adapter that does not
override the market methods ends FAILED with the unsupported message and no
limit call. -/
theorem market_order_unsupported_fails_fast_witness :
    (execute_trigger (some stubBroker) 3 sampleMS marketTrigger 650).result
      = false ∧
    (execute_trigger (some stubBroker) 3 sampleMS
        marketTrigger 650).broker_calls.all (fun c => !c.isLimit) = true :=
  ⟨(market_order_unsupported_fails_fast stubBroker 3 sampleMS marketTrigger
      650 rfl rfl rfl (by simp [sampleMS])
      (fun f hf => (Option.some.inj hf) ▸ rfl)).1,
   (market_order_unsupported_fails_fast stubBroker 3 sampleMS marketTrigger
      650 rfl rfl rfl (by simp [sampleMS])
      (fun f hf => (Option.some.inj hf) ▸ rfl)).2.1⟩

lemma record_outcome_broker_calls (now : ℤ) (st2 : Storage)
    (t1 : TriggerOrder) (result : OrderResult) (p : ℚ) (infl : List String)
    (call : BrokerCall) :
    (record_outcome now st2 t1 result p infl call).broker_calls = [call] := by
  unfold record_outcome
  by_cases h : result.success = true <;> simp [h]

lemma record_outcome_lookup (now : ℤ) (st2 : Storage) (t1 : TriggerOrder)
    (result : OrderResult) (p : ℚ) (infl : List String) (call : BrokerCall) :
    ∃ t2, (record_outcome now st2 t1 result p infl
        call).state.storage.get_trigger_order t1.id = some t2 ∧
      t2.triggered_at = t1.triggered_at ∧
      (t2.status = TriggerStatus.executed ∨ t2.status = TriggerStatus.failed) := by
  unfold record_outcome
  by_cases h : result.success = true
  · refine ⟨{ t1 with
      status := TriggerStatus.executed
      executed_at := some now
      executed_order_no := result.order_no
      execution_message := "執行成功" }, ?_, rfl, Or.inl rfl⟩
    simp only [h, if_true]
    exact get_trigger_order_save_self _ _
  · refine ⟨{ t1 with
      status := TriggerStatus.failed
      execution_message := result.message }, ?_, rfl, Or.inr rfl⟩
    simp only [h, Bool.false_eq_true, if_false]
    exact get_trigger_order_save_self _ _

lemma record_outcome_logs_mono (now : ℤ) (st2 : Storage) (t1 : TriggerOrder)
    (result : OrderResult) (p : ℚ) (infl : List String) (call : BrokerCall)
    (l : OrderLog) (hl : l ∈ st2.logs) :
    l ∈ (record_outcome now st2 t1 result p infl call).state.storage.logs := by
  unfold record_outcome
  by_cases h : result.success = true <;>
    simp only [h, Bool.false_eq_true, if_true, if_false] <;>
    · rw [logs_save_trigger_order]
      exact List.mem_append_left _ hl

/-- C10: when the guard's re-fetch finds no stored record (and the id is not
in flight) the early return does not fire: execution proceeds — the
TRIGGERED record is re-persisted (its `triggered` log line is appended and a
record for the id exists again afterwards, ending EXECUTED or FAILED with
`triggered_at` set) and the adapter is dispatched to; the early-return
branch requires a found record with a non-ACTIVE status
(src/core/trigger_order_manager.py lines 246-264). -/
theorem execute_missing_record_proceeds (b : Broker) (now : ℤ)
    (ms : ManagerState) (trigger : TriggerOrder) (price : ℚ)
    (hnin : trigger.id ∉ ms.executing_triggers)
    (hguard : ∀ f, ms.storage.get_trigger_order trigger.id = some f →
      f.status = TriggerStatus.active) :
    (execute_trigger (some b) now ms trigger price).broker_calls ≠ [] ∧
    (log_action now
        { trigger with
          status := TriggerStatus.triggered
          triggered_at := some now }
        "triggered" true "觸發價格" (some price) none)
      ∈ (execute_trigger (some b) now ms trigger price).state.storage.logs ∧
    (∃ t2, (execute_trigger (some b) now ms
        trigger price).state.storage.get_trigger_order trigger.id = some t2 ∧
      t2.triggered_at = some now ∧
      (t2.status = TriggerStatus.executed ∨ t2.status = TriggerStatus.failed)) := by
  unfold execute_trigger
  rw [if_neg hnin]
  have hg : (match ms.storage.get_trigger_order trigger.id with
      | some fresh => decide (fresh.status ≠ TriggerStatus.active)
      | none => false) = false := by
    cases hl : ms.storage.get_trigger_order trigger.id with
    | none => rfl
    | some f => simp [hguard f hl]
  rw [hg]
  simp only [Bool.false_eq_true, if_false]
  have hfail : ∀ (st2 : Storage) (t1 : TriggerOrder) (e : String)
      (c : BrokerCall),
      (log_action now t1 "triggered" true "觸發價格" (some price) none)
        ∈ st2.logs →
      t1.triggered_at = some now →
      ((exec_fail now st2 t1 e price
          ms.executing_triggers [c]).broker_calls ≠ [] ∧
        (log_action now t1 "triggered" true "觸發價格" (some price) none) ∈
          (exec_fail now st2 t1 e price
            ms.executing_triggers [c]).state.storage.logs ∧
        ∃ t2, (exec_fail now st2 t1 e price
            ms.executing_triggers
            [c]).state.storage.get_trigger_order t1.id = some t2 ∧
          t2.triggered_at = some now ∧
          (t2.status = TriggerStatus.executed ∨
            t2.status = TriggerStatus.failed)) := by
    intro st2 t1 e c hm ht
    refine ⟨by simp [exec_fail_broker_calls], ?_, ?_⟩
    · exact exec_fail_logs_mono _ _ _ _ _ _ _ _ hm
    · exact ⟨_, exec_fail_lookup _ _ _ _ _ _ _, ht, Or.inr rfl⟩
  have hok : ∀ (st2 : Storage) (t1 : TriggerOrder) (r : OrderResult)
      (c : BrokerCall),
      (log_action now t1 "triggered" true "觸發價格" (some price) none)
        ∈ st2.logs →
      t1.triggered_at = some now →
      ((record_outcome now st2 t1 r price
          ms.executing_triggers c).broker_calls ≠ [] ∧
        (log_action now t1 "triggered" true "觸發價格" (some price) none) ∈
          (record_outcome now st2 t1 r price
            ms.executing_triggers c).state.storage.logs ∧
        ∃ t2, (record_outcome now st2 t1 r price
            ms.executing_triggers
            c).state.storage.get_trigger_order t1.id = some t2 ∧
          t2.triggered_at = some now ∧
          (t2.status = TriggerStatus.executed ∨
            t2.status = TriggerStatus.failed)) := by
    intro st2 t1 r c hm ht
    refine ⟨by simp [record_outcome_broker_calls], ?_, ?_⟩
    · exact record_outcome_logs_mono _ _ _ _ _ _ _ _ hm
    · obtain ⟨t2, hL, hT, hS⟩ := record_outcome_lookup now st2 t1 r price
        ms.executing_triggers c
      exact ⟨t2, hL, by rw [hT, ht], hS⟩
  cases hact : trigger.order_action
  case buy =>
    by_cases hc : (trigger.order_type = OrderType.market ∧
        b.has_market_attr = true)
    · rw [if_pos hc]
      cases himpl : b.implements_market
      · simp only [Broker.place_market_buy_order, himpl, Bool.false_eq_true,
          if_false]
        refine hfail _ _ _ _ ?_ ?_
        · simp [Storage.save_order_log]
        · rfl
      · simp only [Broker.place_market_buy_order, himpl, if_true]
        refine hok _ _ _ _ ?_ ?_
        · simp [Storage.save_order_log]
        · rfl
    · rw [if_neg hc]
      refine hok _ _ _ _ ?_ ?_
      · simp [Storage.save_order_log]
      · rfl
  case sell =>
    by_cases hc : (trigger.order_type = OrderType.market ∧
        b.has_market_attr = true)
    · simp only [if_pos hc]
      cases himpl : b.implements_market
      · simp only [Broker.place_market_sell_order, himpl, Bool.false_eq_true,
          if_false]
        refine hfail _ _ _ _ ?_ ?_
        · simp [Storage.save_order_log]
        · rfl
      · simp only [Broker.place_market_sell_order, himpl, if_true]
        refine hok _ _ _ _ ?_ ?_
        · simp [Storage.save_order_log]
        · rfl
    · simp only [if_neg hc]
      refine hok _ _ _ _ ?_ ?_
      · simp [Storage.save_order_log]
      · rfl

/-- C10 witness: executing a trigger whose record is absent from the store
proceeds and dispatches. -/
theorem execute_missing_record_proceeds_witness :
    (execute_trigger (some stubBroker) 3 emptyMS sampleTrigger 650).broker_calls
      ≠ [] ∧
    (log_action 3
        { sampleTrigger with
          status := TriggerStatus.triggered
          triggered_at := some 3 }
        "triggered" true "觸發價格" (some 650) none)
      ∈ (execute_trigger (some stubBroker) 3 emptyMS
          sampleTrigger 650).state.storage.logs ∧
    (∃ t2, (execute_trigger (some stubBroker) 3 emptyMS
        sampleTrigger 650).state.storage.get_trigger_order sampleTrigger.id
        = some t2 ∧
      t2.triggered_at = some 3 ∧
      (t2.status = TriggerStatus.executed ∨ t2.status = TriggerStatus.failed)) :=
  execute_missing_record_proceeds stubBroker 3 emptyMS sampleTrigger 650
    (List.not_mem_nil _) (fun f hf => Option.noConfusion hf)

/-! ## Lemmas about the expiry sweep of `get_all_active_triggers` -/

lemma sweep_list (now : ℤ) (l : List TriggerOrder) (acc : List TriggerOrder)
    (st0 : Storage) :
    (l.foldl (sweep_step now) (acc, st0)).1 =
      acc ++ l.filter (fun t => !(t.is_expired now)) := by
  induction l generalizing acc st0 with
  | nil => simp
  | cons t ts ih =>
    by_cases h : t.is_expired now = true
    · simp [sweep_step, h, ih]
    · have h' : t.is_expired now = false := by simpa using h
      simp [sweep_step, h', ih]

lemma sweep_logs_mono (now : ℤ) (l : List TriggerOrder)
    (acc : List TriggerOrder) (st0 : Storage) (lg : OrderLog)
    (h : lg ∈ st0.logs) :
    lg ∈ (l.foldl (sweep_step now) (acc, st0)).2.logs := by
  induction l generalizing acc st0 with
  | nil => exact h
  | cons t ts ih =>
    by_cases he : t.is_expired now = true
    · simp only [List.foldl_cons, sweep_step, he, if_true]
      refine ih _ _ ?_
      simp only [Storage.save_order_log, logs_save_trigger_order]
      exact List.mem_append_left _ h
    · have he' : t.is_expired now = false := by simpa using he
      simp only [List.foldl_cons, sweep_step, he', Bool.false_eq_true, if_false]
      exact ih _ _ h

lemma sweep_get_untouched (now : ℤ) (l : List TriggerOrder)
    (acc : List TriggerOrder) (st0 : Storage) (i : String)
    (h : ∀ u ∈ l, u.id ≠ i) :
    (l.foldl (sweep_step now) (acc, st0)).2.get_trigger_order i =
      st0.get_trigger_order i := by
  induction l generalizing acc st0 with
  | nil => rfl
  | cons t ts ih =>
    have hti : t.id ≠ i := h t (List.mem_cons_self t ts)
    have hts : ∀ u ∈ ts, u.id ≠ i := fun u hu => h u (List.mem_cons_of_mem t hu)
    by_cases he : t.is_expired now = true
    · simp only [List.foldl_cons, sweep_step, he, if_true]
      rw [ih _ _ hts, get_trigger_order_save_order_log,
        get_trigger_order_save_of_ne]
      exact fun e => hti e.symm
    · have he' : t.is_expired now = false := by simpa using he
      simp only [List.foldl_cons, sweep_step, he', Bool.false_eq_true, if_false]
      exact ih _ _ hts

lemma sweep_processes (now : ℤ) (l : List TriggerOrder)
    (acc : List TriggerOrder) (st0 : Storage)
    (hnodup : (l.map (fun t => t.id)).Nodup) (t : TriggerOrder) (ht : t ∈ l)
    (hexp : t.is_expired now = true) :
    (l.foldl (sweep_step now) (acc, st0)).2.get_trigger_order t.id =
      some { t with status := TriggerStatus.expired, updated_at := now } ∧
    (log_action now { t with status := TriggerStatus.expired, updated_at := now }
        "expired" true "條件單已過期" none none)
      ∈ (l.foldl (sweep_step now) (acc, st0)).2.logs := by
  induction l generalizing acc st0 with
  | nil => cases ht
  | cons u ts ih =>
    rcases List.mem_cons.mp ht with rfl | hmem
    · simp only [List.foldl_cons, sweep_step, hexp, if_true]
      have hids : ∀ v ∈ ts, v.id ≠ t.id := by
        intro v hv e
        have hnot := (List.nodup_cons.mp hnodup).1
        exact hnot (List.mem_map.mpr ⟨v, hv, e⟩)
      constructor
      · rw [sweep_get_untouched now ts _ _ _ hids,
          get_trigger_order_save_order_log]
        exact get_trigger_order_save_self _ _
      · refine sweep_logs_mono now ts _ _ _ ?_
        simp [Storage.save_order_log]
    · have hnd : (ts.map (fun t => t.id)).Nodup :=
        (List.nodup_cons.mp hnodup).2
      by_cases he : u.is_expired now = true
      · simp only [List.foldl_cons, sweep_step, he, if_true]
        exact ih _ _ hnd hmem
      · have he' : u.is_expired now = false := by simpa using he
        simp only [List.foldl_cons, sweep_step, he', Bool.false_eq_true,
          if_false]
        exact ih _ _ hnd hmem

/-- C5: `get_all_active_triggers` returns exactly the ACTIVE records whose
`expires_at` has not passed; every ACTIVE record that has expired is excluded
from the returned list, transitioned to EXPIRED with `updated_at = now` in
the store, and an `expired` log line is appended
(src/core/trigger_order_manager.py lines 130-146).  Trigger ids are unique
in the store (each record is one file named by its id). -/
theorem list_active_sweeps_expired (st : Storage) (now : ℤ)
    (hnodup : (st.triggers.map (fun t => t.id)).Nodup) :
    ((get_all_active_triggers st now).1 =
      (st.get_triggers_by_status TriggerStatus.active).filter
        (fun t => !(t.is_expired now))) ∧
    (∀ t ∈ (get_all_active_triggers st now).1,
      t.status = TriggerStatus.active ∧ t.is_expired now = false) ∧
    (∀ t ∈ st.triggers, t.status = TriggerStatus.active →
      t.is_expired now = true →
      t ∉ (get_all_active_triggers st now).1 ∧
      (get_all_active_triggers st now).2.get_trigger_order t.id =
        some { t with status := TriggerStatus.expired, updated_at := now } ∧
      (log_action now
          { t with status := TriggerStatus.expired, updated_at := now }
          "expired" true "條件單已過期" none none)
        ∈ (get_all_active_triggers st now).2.logs) := by
  have hpart1 : (get_all_active_triggers st now).1 =
      (st.get_triggers_by_status TriggerStatus.active).filter
        (fun t => !(t.is_expired now)) := by
    unfold get_all_active_triggers
    rw [sweep_list]
    rfl
  have hnd : ((st.get_triggers_by_status TriggerStatus.active).map
      (fun t => t.id)).Nodup := by
    refine hnodup.sublist (List.Sublist.map _ ?_)
    exact List.filter_sublist st.triggers
  refine ⟨hpart1, ?_, ?_⟩
  · intro t hmem
    rw [hpart1] at hmem
    obtain ⟨hact, hlive⟩ := List.mem_filter.mp hmem
    refine ⟨?_, by simpa using hlive⟩
    have := (List.mem_filter.mp hact).2
    simpa using this
  · intro t hmem hact hexp
    have hactive : t ∈ st.get_triggers_by_status TriggerStatus.active := by
      unfold Storage.get_triggers_by_status
      exact List.mem_filter.mpr ⟨hmem, by simp [hact]⟩
    refine ⟨?_, ?_, ?_⟩
    · rw [hpart1]
      intro hin
      have := (List.mem_filter.mp hin).2
      rw [hexp] at this
      simp at this
    · exact (sweep_processes now _ [] st hnd t hactive hexp).1
    · exact (sweep_processes now _ [] st hnd t hactive hexp).2

/-- C5 witness: at time 2 the expired ACTIVE trigger is excluded from the
returned list and its stored record has transitioned to EXPIRED. -/
theorem list_active_sweeps_expired_witness :
    ({ sampleTrigger with expires_at := some 1 } : TriggerOrder)
      ∉ (get_all_active_triggers expiredStorage 2).1 ∧
    (get_all_active_triggers expiredStorage 2).2.get_trigger_order "t1" =
      some { sampleTrigger with
             expires_at := some 1
             status := TriggerStatus.expired
             updated_at := 2 } :=
  ⟨((list_active_sweeps_expired expiredStorage 2 (by decide)).2.2
      { sampleTrigger with expires_at := some 1 }
      (List.mem_cons_self _ _) rfl (by decide)).1,
   ((list_active_sweeps_expired expiredStorage 2 (by decide)).2.2
      { sampleTrigger with expires_at := some 1 }
      (List.mem_cons_self _ _) rfl (by decide)).2.1⟩

/-- C1: the double-checked guard makes `execute_trigger` at-most-once per
trigger.  Sequentially: a call that finds the id in the in-flight set, or
that re-reads a stored status other than ACTIVE, returns false having
changed nothing and without any adapter call.  Concurrently (two workers
interleaved at the granularity of the source's atomic sections, any
schedule, any broker availability/outcome): at most one adapter call
happens, the stored-status write history is a prefix of
`ACTIVE → TRIGGERED → EXECUTED` or `ACTIVE → TRIGGERED → FAILED` (never the
ill-formed `bad` history), and at most one worker ever passes the guard
(src/core/trigger_order_manager.py lines 246-256 and 352-355). -/
theorem execute_trigger_exactly_once :
    (∀ (broker : Option Broker) (now : ℤ) (ms : ManagerState)
        (trigger : TriggerOrder) (price : ℚ),
      trigger.id ∈ ms.executing_triggers →
      execute_trigger broker now ms trigger price =
        { result := false, state := ms, broker_calls := [] }) ∧
    (∀ (broker : Option Broker) (now : ℤ) (ms : ManagerState)
        (trigger : TriggerOrder) (price : ℚ) (f : TriggerOrder),
      trigger.id ∉ ms.executing_triggers →
      ms.storage.get_trigger_order trigger.id = some f →
      f.status ≠ TriggerStatus.active →
      execute_trigger broker now ms trigger price =
        { result := false, state := ms, broker_calls := [] }) ∧
    (∀ (schedule : List Bool) (a1 o1 a2 o2 : Bool),
      (runC schedule (initC a1 o1 a2 o2)).calls.val ≤ 1 ∧
      (runC schedule (initC a1 o1 a2 o2)).hist ≠ WriteHist.bad ∧
      ¬((runC schedule (initC a1 o1 a2 o2)).pc1.progressed = true ∧
        (runC schedule (initC a1 o1 a2 o2)).pc2.progressed = true)) := by
  refine ⟨?_, ?_, ?_⟩
  · intro broker now ms trigger price h
    unfold execute_trigger
    rw [if_pos h]
  · intro broker now ms trigger price f hnin hget hstat
    unfold execute_trigger
    rw [if_neg hnin, hget]
    simp [hstat]
  · intro schedule a1 o1 a2 o2
    exact InvC_good _ (InvC_runC schedule _ (InvC_init a1 o1 a2 o2))

/-- C1 witness: a call with the id in flight, and a call re-reading a
CANCELLED status, both return false with nothing changed and no adapter
call. -/
theorem execute_trigger_exactly_once_witness :
    execute_trigger none 0 inflightMS sampleTrigger 650 =
      { result := false, state := inflightMS, broker_calls := [] } ∧
    execute_trigger none 0 cancelledMS sampleTrigger 650 =
      { result := false, state := cancelledMS, broker_calls := [] } :=
  ⟨execute_trigger_exactly_once.1 none 0 inflightMS sampleTrigger 650
      (by decide),
   execute_trigger_exactly_once.2.1 none 0 cancelledMS sampleTrigger 650
      { sampleTrigger with status := TriggerStatus.cancelled }
      (by decide) rfl (by decide)⟩

end GridPilot
